import Mathlib

/-!
Verification of the indexer-service-rs TAP accounting core.

This file gives a shallow embedding of the parts of the repository that the
claims C1..C10 talk about:

* `common/src/escrow_accounts.rs` — the escrow-accounts watcher balance
  computation (C10);
* `common/src/tap/checks/timestamp_check.rs` — the receipt timestamp check (C5);
* `tap-agent/src/agent/sender_allocation.rs` — the Allocation Actor:
  `NewReceipt` handling (C8), `request_rav` backoff (C2), graceful close and
  `mark_rav_last` (C3), and the RAV verification-failure path (C4);
* `crates/tap-agent/src/agent/sender_account.rs` — the Sender Actor:
  `deny_condition_reached`, the `UpdateReceiptFees` handler decision logic,
  the denylist transitions and the scheduled retry (C1, C6, C7, C9).

Machine integers are modelled as `Nat`, with explicit reductions modulo
`2 ^ 128` (release-mode wrapping of `u128` addition) or saturation where the
source is explicit about it.  The fee trackers, the adaptive limiter and the
global backoff of the Sender Actor live in crate modules that are not part of
the provided sources; they are modelled from the specification (sections 4.1
and 4.2) and marked as such in their doc comments.
-/

namespace IndexerTap

/-- Addresses (20-byte identifiers) are modelled as natural numbers. -/
abbrev Address : Type := Nat

/-- Largest value of the Rust type `u128`. -/
def u128Max : Nat := 2 ^ 128 - 1

/-- Saturating `u128` addition: `a.checked_add(b).unwrap_or(u128::MAX)`
as it appears in the `NewReceipt` handler of `sender_allocation.rs`. -/
def u128SaturatingAdd (a b : Nat) : Nat := min (a + b) u128Max

/-! ## C10 — escrow-accounts watcher (`common/src/escrow_accounts.rs`) -/

/-- `U256::checked_sub`: `some (b - t)` when no underflow, `none` otherwise. -/
def u256CheckedSub (b t : Nat) : Option Nat :=
  if t ≤ b then some (b - t) else none

/-- The balance published by `escrow_accounts` for one account:
`U256::checked_sub(balance, total_amount_thawing).unwrap_or_else(|| 0)`
(`escrow_accounts.rs` lines 67-78). -/
def escrowBalance (balance totalAmountThawing : Nat) : Nat :=
  (u256CheckedSub balance totalAmountThawing).getD 0

/-! ## C5 — timestamp check (`common/src/tap/checks/timestamp_check.rs`) -/

/-- `TimestampCheck::check`.  All times are nanoseconds since the epoch.
The check computes `min = now - tolerance` and `max = now + tolerance` as
Rust `Duration`s (the subtraction panics when `tolerance > now`, modelled as
`none`) and accepts iff `min < ts` and `ts < max` — both comparisons strict
in the source (line 32). -/
def timestampCheck (tolerance now ts : Nat) : Option Bool :=
  if now < tolerance then none
  else some (decide (now - tolerance < ts) && decide (ts < now + tolerance))

/-- The acceptance predicate the specification states for the timestamp
check, written from the spec words: `|receipt.ts − now| ≤ tolerance`. -/
def specTimestampAccept (tolerance now ts : Nat) : Bool :=
  decide (((ts : Int) - (now : Int)).natAbs ≤ tolerance)

/-! ## C8 — `NewReceipt` handling (`tap-agent/src/agent/sender_allocation.rs`
lines 227-254) -/

/-- The per-allocation unaggregated-fee state of the Allocation Actor
(`UnaggregatedReceipts` in `agent/unaggregated_receipts.rs`): a `u64`
last-seen notification id and a `u128` total value. -/
structure UnaggregatedReceipts where
  lastId : Nat
  value : Nat
deriving DecidableEq, Repr

/-- The `NewReceipt` arm of `SenderAllocation::handle`: when the notification
id exceeds `last_id`, set `last_id` to the id, saturating-add the value and
report the updated total (second component `some upd`); otherwise leave the
state unchanged and report nothing. -/
def handleNewReceipt (u : UnaggregatedReceipts) (id fees : Nat) :
    UnaggregatedReceipts × Option UnaggregatedReceipts :=
  if u.lastId < id then
    let upd : UnaggregatedReceipts := ⟨id, u128SaturatingAdd u.value fees⟩
    (upd, some upd)
  else (u, none)

/-! ## C2 — RAV request retry backoff (`sender_allocation.rs` lines 448-478) -/

/-- Retry state of the Allocation Actor: `failed_ravs_count : u32` and the
backoff deadline `failed_rav_backoff` (an instant, here in milliseconds). -/
structure AllocRetryState where
  failedRavsCount : Nat
  failedRavBackoff : Nat
deriving DecidableEq, Repr

/-- The backoff duration (milliseconds) computed on a failed RAV request:
`(Duration::from_millis(100) * 2u32.pow(count)).max(Duration::from_secs(60))`.
`2u32.pow` wraps modulo `2 ^ 32` in release builds, and `.max` makes 60 s a
lower bound of the duration, not an upper bound. -/
def backoffDurMs (count : Nat) : Nat :=
  max (100 * (2 ^ count % 2 ^ 32)) 60000

/-- The failure arm of `request_rav`: set the deadline to now plus the
backoff duration, then increment the consecutive-failure counter. -/
def requestRavFailure (st : AllocRetryState) (now : Nat) : AllocRetryState :=
  { failedRavsCount := st.failedRavsCount + 1
    failedRavBackoff := now + backoffDurMs st.failedRavsCount }

/-- The success arm of `request_rav`: reset the consecutive-failure counter
(`self.failed_ravs_count = 0`, line 456). -/
def requestRavSuccess (st : AllocRetryState) : AllocRetryState :=
  { st with failedRavsCount := 0 }

/-! ## C4 — RAV verification failure (`sender_allocation.rs` lines 583-625
and 742-770) -/

/-- A Receipt Aggregate Voucher as stored or received. -/
structure Rav where
  allocationId : Address
  timestampNs : Nat
  valueAggregate : Nat
deriving DecidableEq, Repr

/-- A row of the pending-receipts table (`scalar_tap_receipts`), reduced to
the fields the claims mention. -/
structure ReceiptRow where
  id : Nat
  ts : Nat
  value : Nat
deriving DecidableEq, Repr

/-- The three `tap_core` error variants that `rav_requester_single` treats
as an invalid RAV from the aggregator (lines 599-606): field mismatch or
value/timestamp regression (`InvalidReceivedRAV`), a bad signature
(`SignatureError`), and a signer not authorized (`InvalidRecoveredSigner`). -/
inductive RavVerifyError
  | invalidReceivedRav
  | signatureError
  | invalidRecoveredSigner
deriving DecidableEq, Repr

/-- Outcome of `verify_and_store_rav` as matched by the source. -/
inductive RavVerifyOutcome
  | ok
  | adapterError
  | invalid (e : RavVerifyError)
  | otherError
deriving DecidableEq, Repr

/-- A row of `scalar_tap_rav_requests_failed` as inserted by
`store_failed_rav`: allocation, sender, the expected RAV, the received RAV
and the reason. -/
structure FailedRavRow where
  allocationId : Address
  sender : Address
  expectedRav : Rav
  ravResponse : Rav
  reason : RavVerifyError
deriving DecidableEq, Repr

/-- The database state an Allocation Actor touches during a RAV request. -/
structure AllocDb where
  receipts : List ReceiptRow
  storedRav : Option Rav
  failedRavs : List FailedRavRow
deriving DecidableEq, Repr

/-- The aggregator-response handling of `rav_requester_single`: on `Ok` the
RAV is stored; on `AdapterError` or any other error nothing is written; on
an invalid RAV a `scalar_tap_rav_requests_failed` row with the expected and
received artifacts is inserted.  In none of the failure arms is any row of
the pending-receipts table deleted.  Second component is `true` exactly when
the whole request succeeds. -/
def ravResponseHandling (db : AllocDb) (sender alloc : Address)
    (expected response : Rav) (out : RavVerifyOutcome) : AllocDb × Bool :=
  match out with
  | .ok => ({ db with storedRav := some response }, true)
  | .adapterError => (db, false)
  | .invalid e =>
      ({ db with
          failedRavs := db.failedRavs ++ [⟨alloc, sender, expected, response, e⟩] },
       false)
  | .otherError => (db, false)

/-- `request_rav` composed with the response handling: a failed request
applies the retry backoff, a successful one resets the failure counter. -/
def requestRavVerify (rst : AllocRetryState) (now : Nat) (db : AllocDb)
    (sender alloc : Address) (expected response : Rav)
    (out : RavVerifyOutcome) : AllocRetryState × AllocDb × Bool :=
  let (db2, okb) := ravResponseHandling db sender alloc expected response out
  if okb then (requestRavSuccess rst, db2, true)
  else (requestRavFailure rst now, db2, false)

/-! ## C3 — graceful close (`sender_allocation.rs` lines 183-212 and
639-673) -/

/-- A row of the `scalar_tap_ravs` table, reduced to the fields the claim
mentions. -/
structure RavRow where
  sender : Address
  alloc : Address
  last : Bool
deriving DecidableEq, Repr

/-- Does a RAV row belong to the given `(sender, allocation)` pair? -/
def pairMatch (s a : Address) (r : RavRow) : Bool :=
  r.sender == s && r.alloc == a

/-- `mark_rav_last`: the SQL `UPDATE scalar_tap_ravs SET last = true WHERE
allocation_id = $1 AND sender_address = $2`, returning the updated table and
the number of affected rows. -/
def markRavLast (db : List RavRow) (s a : Address) : List RavRow × Nat :=
  (db.map fun r => if pairMatch s a r then { r with last := true } else r,
   db.countP (pairMatch s a))

/-- Events emitted during `post_stop`: a RAV request attempt, the 30 s sleep
after a failed attempt, and the final mark-last update. -/
inductive CloseEvent
  | ravRequest
  | sleep30
  | markLast
deriving DecidableEq, Repr

/-- Outcome of one `request_rav` attempt during the close loop, carrying the
recomputed `unaggregated_fees` value (recomputed from the database on
success, and on the `AllReceiptsInvalid` failure; unchanged otherwise, in
which case the environment passes the old value back). -/
inductive RavOutcome
  | success (newFees : Nat)
  | failure (newFees : Nat)
deriving DecidableEq, Repr

/-- The first loop of `post_stop`: while `unaggregated_fees.value > 0`,
attempt a RAV request, sleeping 30 s after each failed attempt.  The loop is
driven by a trace of attempt outcomes; `none` means the trace ran out before
the fees drained (the source loop would still be running). -/
def drainLoop : List RavOutcome → Nat → Option (List CloseEvent × Nat)
  | _, 0 => some ([], 0)
  | [], _ + 1 => none
  | RavOutcome.success f :: rest, _ + 1 =>
      (drainLoop rest f).map fun p => (CloseEvent.ravRequest :: p.1, p.2)
  | RavOutcome.failure f :: rest, _ + 1 =>
      (drainLoop rest f).map fun p =>
        (CloseEvent.ravRequest :: CloseEvent.sleep30 :: p.1, p.2)

/-- `post_stop`: drain the unaggregated fees, then run `mark_rav_last`.
The source accepts 0 or 1 affected rows (warning on 0) and retries forever
when more than one row was affected, which is modelled as `none`. -/
def postStop (fees : Nat) (outs : List RavOutcome) (db : List RavRow)
    (s a : Address) : Option (List CloseEvent × List RavRow × Nat) :=
  match drainLoop outs fees with
  | none => none
  | some (es, _) =>
    let (db2, affected) := markRavLast db s a
    if affected ≤ 1 then some (es ++ [CloseEvent.markLast], db2, affected)
    else none

/-! ## Sender Actor (`crates/tap-agent/src/agent/sender_account.rs`)

The Sender Actor state machine for C1, C6, C7, C9.  The handler logic below
is embedded from `sender_account.rs`; the fee trackers, the adaptive limiter
and the global trigger backoff live in crate modules (`crate::tracker`,
`crate::adaptative_concurrency`, `crate::backoff`) that are not part of the
provided sources and are modelled from the specification. -/

/-- Modelled from the spec (§4.1): the simple fee tracker is a mapping
`allocation → u128` with update, remove and total, used for RAV values and
invalid-receipt fees (`SimpleFeeTracker`, missing from the sources). -/
abbrev SimpleFeeTracker : Type := List (Address × Nat)

/-- Overwrite the tracked value of one allocation. -/
def simpleUpdate (t : SimpleFeeTracker) (a : Address) (v : Nat) :
    SimpleFeeTracker :=
  (a, v) :: t.filter fun p => p.1 != a

/-- Drop one allocation from the tracker. -/
def simpleRemove (t : SimpleFeeTracker) (a : Address) : SimpleFeeTracker :=
  t.filter fun p => p.1 != a

/-- Total fee over all tracked allocations. -/
def simpleTotal (t : SimpleFeeTracker) : Nat := (t.map Prod.snd).sum

/-- The allocation ids the tracker knows (`get_list_of_allocation_ids`). -/
def simpleKeys (t : SimpleFeeTracker) : List Address := t.map Prod.fst

/-- Modelled from the spec (§4.1): one increment recorded by the buffered
sender-fee tracker — timestamp, value and receipt count. -/
structure FeeEntry where
  ts : Nat
  value : Nat
  count : Nat
deriving DecidableEq, Repr

/-- Modelled from the spec (§4.1): per-allocation state of the buffered
sender-fee tracker: `(total_value, count, last_receipt_ts, blocked?,
rav_in_flight?, backoff_until)` plus the queue of recent increments. -/
structure AllocFee where
  totalValue : Nat
  count : Nat
  lastReceiptTs : Nat
  blocked : Bool
  ravInFlight : Bool
  backoffUntil : Nat
  backoffCount : Nat
  entries : List FeeEntry
deriving DecidableEq, Repr

/-- The state of an allocation the tracker has never seen. -/
def AllocFee.initial : AllocFee := ⟨0, 0, 0, false, false, 0, 0, []⟩

/-- First-match association lookup (defaulting to `AllocFee.initial`). -/
def getAssoc : List (Address × AllocFee) → Address → AllocFee
  | [], _ => AllocFee.initial
  | p :: rest, a => if a == p.1 then p.2 else getAssoc rest a

/-- First-match association overwrite (appending when the key is absent). -/
def setAssoc : List (Address × AllocFee) → Address → AllocFee →
    List (Address × AllocFee)
  | [], a, f => [(a, f)]
  | p :: rest, a, f =>
      if a == p.1 then (a, f) :: rest else p :: setAssoc rest a f

/-- Modelled from the spec (§4.1): the buffered sender-fee tracker
(`SenderFeeTracker`, missing from the sources), holding the configured time
buffer and the per-allocation states. -/
structure SenderFeeTracker where
  buffer : Nat
  allocs : List (Address × AllocFee)
deriving DecidableEq, Repr

/-- Read one allocation's state. -/
def SenderFeeTracker.getAlloc (t : SenderFeeTracker) (a : Address) :
    AllocFee :=
  getAssoc t.allocs a

/-- Apply a function to one allocation's state. -/
def SenderFeeTracker.modifyAlloc (t : SenderFeeTracker) (a : Address)
    (g : AllocFee → AllocFee) : SenderFeeTracker :=
  { t with allocs := setAssoc t.allocs a (g (t.getAlloc a)) }

/-- `add(allocation, value, ts)`: record an increment, bump the count and
the last-receipt timestamp. -/
def SenderFeeTracker.add (t : SenderFeeTracker) (a : Address) (v ts : Nat) :
    SenderFeeTracker :=
  t.modifyAlloc a fun f =>
    { f with
        totalValue := f.totalValue + v
        count := f.count + 1
        lastReceiptTs := max f.lastReceiptTs ts
        entries := f.entries ++ [⟨ts, v, 1⟩] }

/-- The fee value and receipt counter reported by an Allocation Actor of
the newer agent (its `UnaggregatedReceipts`, missing from the sources;
modelled from the spec with the receipt counter the decision logic
compares against `rav_request_receipt_limit`). -/
structure UnaggregatedFees where
  value : Nat
  lastId : Nat
  counter : Nat
deriving DecidableEq, Repr

/-- `update(allocation, unaggregated)`: overwrite the allocation's total
and counter. -/
def SenderFeeTracker.update (t : SenderFeeTracker) (a : Address)
    (u : UnaggregatedFees) : SenderFeeTracker :=
  t.modifyAlloc a fun f => { f with totalValue := u.value, count := u.counter }

/-- Drop one allocation from the tracker. -/
def SenderFeeTracker.remove (t : SenderFeeTracker) (a : Address) :
    SenderFeeTracker :=
  { t with allocs := t.allocs.filter fun p => p.1 != a }

/-- `block_allocation(a)`: exclude the allocation permanently. -/
def SenderFeeTracker.blockAllocationId (t : SenderFeeTracker) (a : Address) :
    SenderFeeTracker :=
  t.modifyAlloc a fun f => { f with blocked := true }

/-- `start_rav_request(a)`: mark the allocation in flight. -/
def SenderFeeTracker.startRavRequest (t : SenderFeeTracker) (a : Address) :
    SenderFeeTracker :=
  t.modifyAlloc a fun f => { f with ravInFlight := true }

/-- `finish_rav_request(a)`: clear the in-flight mark. -/
def SenderFeeTracker.finishRavRequest (t : SenderFeeTracker) (a : Address) :
    SenderFeeTracker :=
  t.modifyAlloc a fun f => { f with ravInFlight := false }

/-- `ok_rav_request(a)`: a successful request clears the backoff. -/
def SenderFeeTracker.okRavRequest (t : SenderFeeTracker) (a : Address) :
    SenderFeeTracker :=
  t.modifyAlloc a fun f => { f with backoffUntil := 0, backoffCount := 0 }

/-- `failed_rav_backoff(a)`: multiply the allocation's backoff
(100 ms × 2^n, capped at 60 s per the spec). -/
def SenderFeeTracker.failedRavBackoff (t : SenderFeeTracker) (now a : Nat) :
    SenderFeeTracker :=
  t.modifyAlloc a fun f =>
    { f with
        backoffUntil := now + min (100 * 2 ^ f.backoffCount) 60000
        backoffCount := f.backoffCount + 1 }

/-- The portion of an allocation's value still inside the time buffer:
the recorded increments younger than `now - buffer`. -/
def AllocFee.bufferedValue (f : AllocFee) (buffer now : Nat) : Nat :=
  ((f.entries.filter fun e => decide (now - buffer < e.ts)).map
    FeeEntry.value).sum

/-- The portion of an allocation's receipt count inside the buffer. -/
def AllocFee.bufferedCount (f : AllocFee) (buffer now : Nat) : Nat :=
  ((f.entries.filter fun e => decide (now - buffer < e.ts)).map
    FeeEntry.count).sum

/-- An allocation's fee outside the buffer. -/
def AllocFee.feeOutside (f : AllocFee) (buffer now : Nat) : Nat :=
  f.totalValue - f.bufferedValue buffer now

/-- An allocation's receipt count outside the buffer. -/
def AllocFee.countOutside (f : AllocFee) (buffer now : Nat) : Nat :=
  f.count - f.bufferedCount buffer now

/-- Is the allocation a candidate for a RAV request?  Per the spec,
candidates exclude blocked, in-flight and backed-off allocations. -/
def AllocFee.isCandidate (f : AllocFee) (now : Nat) : Bool :=
  !f.blocked && !f.ravInFlight && decide (f.backoffUntil ≤ now)

/-- The ravable fee of an allocation: its fee outside the buffer when it is
a candidate, 0 otherwise. -/
def AllocFee.ravableFee (f : AllocFee) (buffer now : Nat) : Nat :=
  if f.isCandidate now then f.feeOutside buffer now else 0

/-- `get_total_fee()`: sum over all allocations, buffered included. -/
def SenderFeeTracker.getTotalFee (t : SenderFeeTracker) : Nat :=
  (t.allocs.map fun p => p.2.totalValue).sum

/-- `get_ravable_total_fee()`: sum of candidate fees outside the buffer. -/
def SenderFeeTracker.getRavableTotalFee (t : SenderFeeTracker) (now : Nat) :
    Nat :=
  (t.allocs.map fun p => p.2.ravableFee t.buffer now).sum

/-- `get_count_outside_buffer_for_allocation`. -/
def SenderFeeTracker.getCountOutsideBufferForAllocation
    (t : SenderFeeTracker) (now : Nat) (a : Address) : Nat :=
  (t.getAlloc a).countOutside t.buffer now

/-- `can_trigger_rav`: the allocation is a candidate. -/
def SenderFeeTracker.canTriggerRav (t : SenderFeeTracker) (now : Nat)
    (a : Address) : Bool :=
  (t.getAlloc a).isCandidate now

/-- Tie-break order of `get_heaviest_allocation_id`: larger ravable fee,
then larger last-receipt timestamp, then larger address. -/
def heavierThan (buffer now : Nat) (p q : Address × AllocFee) : Bool :=
  let fp := p.2.ravableFee buffer now
  let fq := q.2.ravableFee buffer now
  decide (fq < fp) ||
    (fp == fq &&
      (decide (q.2.lastReceiptTs < p.2.lastReceiptTs) ||
        (p.2.lastReceiptTs == q.2.lastReceiptTs && decide (q.1 ≤ p.1))))

/-- `get_heaviest_allocation_id()`: the candidate with the largest ravable
fee, `none` when no candidate has a positive ravable fee. -/
def SenderFeeTracker.getHeaviestAllocationId (t : SenderFeeTracker)
    (now : Nat) : Option Address :=
  match t.allocs.filter fun p => decide (0 < p.2.ravableFee t.buffer now) with
  | [] => none
  | c :: rest =>
      some (rest.foldl
        (fun best q => if heavierThan t.buffer now q best then q else best)
        c).1

/-- Modelled from the spec (§4.2): the AIMD limiter for concurrent RAV
requests (`AdaptiveLimiter`, missing from the sources): capacity starts at
1 with range `[1, 50]`; acquire takes a slot, success adds one to capacity,
failure halves it (floored at 1); `has_limit` holds while a slot is free. -/
structure AdaptiveLimiter where
  capacity : Nat
  inFlight : Nat
deriving DecidableEq, Repr

/-- The limiter as built in `pre_start`: capacity 1, nothing in flight. -/
def AdaptiveLimiter.initial : AdaptiveLimiter := ⟨1, 0⟩

/-- `has_limit()`: a slot is available. -/
def AdaptiveLimiter.hasLimit (l : AdaptiveLimiter) : Bool :=
  decide (l.inFlight < l.capacity)

/-- `acquire()`: take a slot. -/
def AdaptiveLimiter.acquire (l : AdaptiveLimiter) : AdaptiveLimiter :=
  { l with inFlight := l.inFlight + 1 }

/-- `on_success()`: release the slot and add one to capacity (capped). -/
def AdaptiveLimiter.onSuccess (l : AdaptiveLimiter) : AdaptiveLimiter :=
  ⟨min (l.capacity + 1) 50, l.inFlight - 1⟩

/-- `on_failure()`: release the slot and halve capacity (floored at 1). -/
def AdaptiveLimiter.onFailure (l : AdaptiveLimiter) : AdaptiveLimiter :=
  ⟨max (l.capacity / 2) 1, l.inFlight - 1⟩

/-- Modelled from the spec: the Sender Actor's global backoff for
triggering RAV requests (`BackoffInfo`, missing from the sources):
`in_backoff` while the deadline is ahead, `ok` resets, `fail` applies an
exponential backoff. -/
structure BackoffInfo where
  failedCount : Nat
  backoffUntil : Nat
deriving DecidableEq, Repr

/-- `BackoffInfo::default()`. -/
def BackoffInfo.initial : BackoffInfo := ⟨0, 0⟩

/-- `in_backoff()`. -/
def BackoffInfo.inBackoff (b : BackoffInfo) (now : Nat) : Bool :=
  decide (now < b.backoffUntil)

/-- `ok()`: reset the global backoff. -/
def BackoffInfo.reset (_ : BackoffInfo) : BackoffInfo := ⟨0, 0⟩

/-- `fail()`: apply an exponential backoff. -/
def BackoffInfo.fail (b : BackoffInfo) (now : Nat) : BackoffInfo :=
  ⟨b.failedCount + 1, now + min (100 * 2 ^ b.failedCount) 60000⟩

/-- The RAV summary the Sender Actor receives (`RavInformation`). -/
structure RavInfo where
  allocationId : Address
  valueAggregate : Nat
deriving DecidableEq, Repr

/-- Result of a RAV request as carried by `ReceiptFees::RavRequestResponse`:
`Ok(Option<RavInformation>)` or `Err`. -/
inductive RavResult
  | ok (rav : Option RavInfo)
  | err
deriving DecidableEq, Repr

/-- The `ReceiptFees` variants of `SenderAccountMessage::UpdateReceiptFees`. -/
inductive ReceiptFees
  | newReceipt (value ts : Nat)
  | updateValue (fees : UnaggregatedFees)
  | ravRequestResponse (fees : UnaggregatedFees) (result : RavResult)
  | retry
deriving DecidableEq, Repr

/-- The configuration fields of `SenderAccountConfig` the handler reads. -/
structure SenderConfig where
  maxAmountWillingToLose : Nat
  triggerValue : Nat
  ravRequestReceiptLimit : Nat
deriving DecidableEq, Repr

/-- The Sender Actor `State` (`sender_account.rs` lines 242-322), with the
logical time `now` made explicit. -/
structure SenderState where
  sender : Address
  senderFeeTracker : SenderFeeTracker
  ravTracker : SimpleFeeTracker
  invalidReceiptsTracker : SimpleFeeTracker
  allocationIds : List Address
  scheduledRavRequest : Option Address
  denied : Bool
  senderBalance : Nat
  limiter : AdaptiveLimiter
  backoffInfo : BackoffInfo
  now : Nat
  config : SenderConfig
deriving DecidableEq, Repr

/-- The `scalar_tap_denylist` table, as the set of denied senders. -/
abbrev Denylist : Type := List Address

/-- `SenderAccount::deny_sender`: `INSERT ... ON CONFLICT DO NOTHING`. -/
def denylistInsert (db : Denylist) (s : Address) : Denylist :=
  if s ∈ db then db else s :: db

/-- The denylist `DELETE` of `remove_from_denylist`. -/
def denylistDelete (db : Denylist) (s : Address) : Denylist :=
  db.filter fun x => x != s

/-- `State::deny_condition_reached` (`sender_account.rs` lines 531-548):
`U256::from(pending_ravs + unaggregated_fees) >= sender_balance`, or
`unaggregated_fees + invalid_receipt_fees >= max_amount_willing_to_lose`.
Both sums are `u128` additions, wrapping modulo `2 ^ 128` in release
builds, performed before the `U256` conversion. -/
def denyConditionReached (st : SenderState) : Bool :=
  let pendingRavs := simpleTotal st.ravTracker
  let unaggregatedFees := st.senderFeeTracker.getTotalFee
  let pendingFeesOverBalance :=
    decide (st.senderBalance ≤ (pendingRavs + unaggregatedFees) % 2 ^ 128)
  let invalidReceiptFees := simpleTotal st.invalidReceiptsTracker
  let totalFeeOverMaxValue :=
    decide (st.config.maxAmountWillingToLose ≤
      (unaggregatedFees + invalidReceiptFees) % 2 ^ 128)
  totalFeeOverMaxValue || pendingFeesOverBalance

/-- `State::update_rav`: overwrite the RAV tracker for one allocation. -/
def SenderState.updateRavTracker (st : SenderState) (a : Address) (v : Nat) :
    SenderState :=
  { st with ravTracker := simpleUpdate st.ravTracker a v }

/-- `State::update_sender_fee`: overwrite the fee tracker for one
allocation. -/
def SenderState.updateSenderFee (st : SenderState) (a : Address)
    (u : UnaggregatedFees) : SenderState :=
  { st with senderFeeTracker := st.senderFeeTracker.update a u }

/-- `State::finalize_rav_request` (`sender_account.rs` lines 480-506):
clear the in-flight mark; on success clear the backoff, grow the limiter
and update the RAV tracker; on failure back the allocation off and shrink
the limiter; finally overwrite the fee tracker with the reported value. -/
def SenderState.finalizeRavRequest (st : SenderState) (a : Address)
    (fees : UnaggregatedFees) (result : RavResult) : SenderState :=
  let st1 :=
    { st with senderFeeTracker := st.senderFeeTracker.finishRavRequest a }
  let st2 :=
    match result with
    | .ok rav =>
        let ravValue := (rav.map RavInfo.valueAggregate).getD 0
        SenderState.updateRavTracker
          { st1 with
              senderFeeTracker := st1.senderFeeTracker.okRavRequest a
              limiter := st1.limiter.onSuccess }
          a ravValue
    | .err =>
        { st1 with
            senderFeeTracker := st1.senderFeeTracker.failedRavBackoff st1.now a
            limiter := st1.limiter.onFailure }
  st2.updateSenderFee a fees

/-- `State::rav_request_for_allocation` (lines 455-474): send
`TriggerRavRequest` to the allocation actor, take a limiter slot and mark
the allocation in flight. -/
def SenderState.ravRequestForAllocation (st : SenderState) (a : Address) :
    SenderState :=
  { st with
      limiter := st.limiter.acquire
      senderFeeTracker := st.senderFeeTracker.startRavRequest a }

/-- Steps of the `UpdateReceiptFees` handler before the deny check
(`sender_account.rs` lines 904-953): abort any scheduled retry, then apply
the `ReceiptFees` variant.  A `NewReceipt` for an already denied sender
re-inserts the denylist row (lines 913-923). -/
def applyReceiptFees (st : SenderState) (db : Denylist)
    (allocationId : Address) (rf : ReceiptFees) : SenderState × Denylist :=
  let st1 := { st with scheduledRavRequest := none }
  match rf with
  | .newReceipt value ts =>
      let db2 := if st1.denied then denylistInsert db st1.sender else db
      ({ st1 with
          senderFeeTracker := st1.senderFeeTracker.add allocationId value ts },
       db2)
  | .ravRequestResponse fees result =>
      (st1.finalizeRavRequest allocationId fees result, db)
  | .updateValue fees => (st1.updateSenderFee allocationId fees, db)
  | .retry => (st1, db)

/-- The eager deny check (`sender_account.rs` lines 958-961, and the same
pattern in the `UpdateRav` and `UpdateInvalidReceiptFees` handlers): a
sender not yet denied whose deny condition holds is added to the denylist
and flagged. -/
def denyCheck (st : SenderState) (db : Denylist) : SenderState × Denylist :=
  if !st.denied && denyConditionReached st then
    ({ st with denied := true }, denylistInsert db st.sender)
  else (st, db)

/-- The `UpdateReceiptFees` handler state after fee update and deny check,
just before the RAV trigger decision. -/
def midState (st : SenderState) (db : Denylist) (allocationId : Address)
    (rf : ReceiptFees) : SenderState × Denylist :=
  denyCheck (applyReceiptFees st db allocationId rf).1
    (applyReceiptFees st db allocationId rf).2

/-- The RAV trigger decision (`sender_account.rs` lines 963-1000): only
with a free limiter slot; outside the global backoff, a ravable total at or
above `trigger_value` requests the heaviest allocation (failing the global
backoff when no candidate exists); otherwise a receipt count outside the
buffer at or above `rav_request_receipt_limit` for an allocation that can
trigger requests that allocation.  The second component lists the
allocations a `TriggerRavRequest` was sent to. -/
def ravTriggerStep (st : SenderState) (allocationId : Address) :
    SenderState × List Address :=
  if st.limiter.hasLimit then
    let totalFeeOutsideBuffer := st.senderFeeTracker.getRavableTotalFee st.now
    let totalCounterForAllocation :=
      st.senderFeeTracker.getCountOutsideBufferForAllocation st.now
        allocationId
    let canTrigger := st.senderFeeTracker.canTriggerRav st.now allocationId
    let counterGreaterReceiptLimit :=
      decide (st.config.ravRequestReceiptLimit ≤ totalCounterForAllocation) &&
        canTrigger
    if !(st.backoffInfo.inBackoff st.now) &&
        decide (st.config.triggerValue ≤ totalFeeOutsideBuffer) then
      match st.senderFeeTracker.getHeaviestAllocationId st.now with
      | none => ({ st with backoffInfo := st.backoffInfo.fail st.now }, [])
      | some h =>
          (SenderState.ravRequestForAllocation
            { st with backoffInfo := st.backoffInfo.reset } h, [h])
    else if counterGreaterReceiptLimit then
      (st.ravRequestForAllocation allocationId, [allocationId])
    else (st, [])
  else (st, [])

/-- The full `UpdateReceiptFees` handler (`sender_account.rs` lines
904-1019): fee update, eager deny check, RAV trigger decision, then the
final denied transition — `(true, false)` removes the sender from the
denylist, `(true, true)` schedules a `Retry` after `retry_interval`. -/
def handleUpdateReceiptFees (st : SenderState) (db : Denylist)
    (allocationId : Address) (rf : ReceiptFees) :
    SenderState × Denylist × List Address :=
  let m := midState st db allocationId rf
  let t := ravTriggerStep m.1 allocationId
  match t.1.denied, denyConditionReached t.1 with
  | true, false =>
      ({ t.1 with denied := false }, denylistDelete m.2 t.1.sender, t.2)
  | true, true =>
      ({ t.1 with scheduledRavRequest := some allocationId }, m.2, t.2)
  | _, _ => (t.1, m.2, t.2)

/-- The messages of the Sender Actor that touch the deny state. -/
inductive SenderMessage
  | updateReceiptFees (allocationId : Address) (rf : ReceiptFees)
  | updateInvalidReceiptFees (allocationId : Address)
      (fees : UnaggregatedFees)
  | updateRav (rav : RavInfo)
  | updateBalanceAndLastRavs (balance : Nat) (ravs : List (Address × Nat))
deriving DecidableEq, Repr

/-- The balance-and-RAV reconciliation of `UpdateBalanceAndLastRavs`
(`sender_account.rs` lines 1090-1123): overwrite the balance, drop tracked
RAVs that are neither active nor in the received map, then update the RAV
tracker from the map. -/
def reconcileBalance (st : SenderState) (balance : Nat)
    (ravs : List (Address × Nat)) : SenderState :=
  let active := st.allocationIds ++ ravs.map Prod.fst
  let removed :=
    (simpleKeys st.ravTracker).filter fun t => !active.contains t
  { st with
      senderBalance := balance
      ravTracker :=
        ravs.foldl (fun tr p => simpleUpdate tr p.1 p.2)
          (removed.foldl simpleRemove st.ravTracker) }

/-- The Sender Actor message handler (`SenderAccount::handle`):
`UpdateRav` and `UpdateInvalidReceiptFees` update their tracker and run the
eager deny check; `UpdateBalanceAndLastRavs` reconciles balance and RAV
tracker and runs the deny transition in both directions (lines 1124-1129). -/
def handleMsg (st : SenderState) (db : Denylist) (msg : SenderMessage) :
    SenderState × Denylist × List Address :=
  match msg with
  | .updateReceiptFees a rf => handleUpdateReceiptFees st db a rf
  | .updateInvalidReceiptFees a fees =>
      let st1 :=
        { st with
            invalidReceiptsTracker :=
              simpleUpdate st.invalidReceiptsTracker a fees.value }
      let r := denyCheck st1 db
      (r.1, r.2, [])
  | .updateRav rav =>
      let st1 := st.updateRavTracker rav.allocationId rav.valueAggregate
      let r := denyCheck st1 db
      (r.1, r.2, [])
  | .updateBalanceAndLastRavs balance ravs =>
      let st2 := reconcileBalance st balance ravs
      match st2.denied, denyConditionReached st2 with
      | true, false =>
          ({ st2 with denied := false }, denylistDelete db st2.sender, [])
      | false, true =>
          ({ st2 with denied := true }, denylistInsert db st2.sender, [])
      | _, _ => (st2, db, [])

/-- The state built in `SenderAccount::pre_start` (lines 765-845): the
denied flag is loaded from the `scalar_tap_denylist` table, the trackers
start empty and the limiter at capacity 1. -/
def initSenderState (sender : Address) (db : Denylist) (balance : Nat)
    (allocationIds : List Address) (buffer : Nat) (cfg : SenderConfig)
    (now : Nat) : SenderState :=
  { sender := sender
    senderFeeTracker := { buffer := buffer, allocs := [] }
    ravTracker := []
    invalidReceiptsTracker := []
    allocationIds := allocationIds
    scheduledRavRequest := none
    denied := decide (sender ∈ db)
    senderBalance := balance
    limiter := AdaptiveLimiter.initial
    backoffInfo := BackoffInfo.initial
    now := now
    config := cfg }

/-- Run a list of messages through the handler. -/
def runMsgs (st : SenderState) (db : Denylist) :
    List SenderMessage → SenderState × Denylist
  | [] => (st, db)
  | m :: rest =>
      let r := handleMsg st db m
      runMsgs r.1 r.2.1 rest

/-- The denial-soundness invariant: the in-memory flag agrees with the
denylist table row for this sender. -/
def deniedConsistent (st : SenderState) (db : Denylist) : Prop :=
  st.denied = true ↔ st.sender ∈ db

end IndexerTap

namespace IndexerTap

/-!  ### Theorems for C10, C5, C8, C2  -/

/-- C10: the published escrow balance is the subgraph balance minus
`totalAmountThawing` with no wrap-around: it equals `b - t` when `t ≤ b`,
is `0` when `t` exceeds `b`, and is never negative. -/
theorem escrow_balance_no_underflow (b t : Nat) :
    (t ≤ b → escrowBalance b t = b - t) ∧
    (b < t → escrowBalance b t = 0) ∧
    0 ≤ ((escrowBalance b t : Int)) := by
  refine ⟨fun h => ?_, fun h => ?_, Int.ofNat_nonneg _⟩
  · simp [escrowBalance, u256CheckedSub, h]
  · simp [escrowBalance, u256CheckedSub, Nat.not_le.mpr h,
      Nat.le_of_lt h]

/-- C10 witness: concrete evaluations of the two branches. -/
theorem escrow_balance_no_underflow_witness :
    escrowBalance 100 30 = 70 ∧ escrowBalance 30 100 = 0 := by
  refine ⟨?_, ?_⟩
  · have h := escrow_balance_no_underflow 100 30
    rw [h.1 (by decide)]
  · have h := escrow_balance_no_underflow 30 100
    rw [h.2.1 (by decide)]

/-- C5 counterexample: with tolerance 100 ns, now 1000 ns, a receipt at
1100 ns deviates by exactly the tolerance; the spec predicate accepts it but
`TimestampCheck::check` rejects it (the source comparisons are strict). -/
theorem timestamp_boundary_counterexample :
    specTimestampAccept 100 1000 1100 = true ∧
    timestampCheck 100 1000 1100 = some false := by
  constructor <;> decide

/-- C5 amended: when `tolerance ≤ now`, the check accepts a receipt if and
only if `|ts − now| < tolerance` — strict inequality at nanosecond
precision, so a receipt deviating by exactly the tolerance is rejected. -/
theorem timestamp_check_strict (tolerance now ts : Nat)
    (h : tolerance ≤ now) :
    timestampCheck tolerance now ts = some true ↔
      ((ts : Int) - (now : Int)).natAbs < tolerance := by
  unfold timestampCheck
  rw [if_neg (Nat.not_lt.mpr h)]
  simp only [Option.some.injEq, Bool.and_eq_true, decide_eq_true_eq]
  omega

/-- C5 amended witness: a receipt 50 ns in the future of now passes. -/
theorem timestamp_check_strict_witness :
    timestampCheck 100 1000 1050 = some true := by
  have h := timestamp_check_strict 100 1000 1050 (by decide)
  exact h.mpr (by decide)

/-- C8: for a `NewReceipt` notification, if the id exceeds `last_id` the
total becomes the saturating sum (clamped at `u128::MAX`, never wrapping),
`last_id` becomes the id and the update is reported; otherwise the state is
unchanged and nothing is reported. -/
theorem new_receipt_saturating (u : UnaggregatedReceipts) (id fees : Nat) :
    (u.lastId < id →
      handleNewReceipt u id fees =
        (⟨id, min (u.value + fees) u128Max⟩,
         some ⟨id, min (u.value + fees) u128Max⟩)) ∧
    (id ≤ u.lastId → handleNewReceipt u id fees = (u, none)) ∧
    (handleNewReceipt u id fees).1.value ≤ max u.value u128Max := by
  refine ⟨fun h => ?_, fun h => ?_, ?_⟩
  · simp [handleNewReceipt, h, u128SaturatingAdd]
  · simp [handleNewReceipt, Nat.not_lt.mpr h]
  · by_cases h : u.lastId < id
    · simp only [handleNewReceipt, if_pos h, u128SaturatingAdd]
      exact le_max_of_le_right (min_le_right _ _)
    · simp only [handleNewReceipt, if_neg h]
      exact le_max_left _ _

/-- C8 witness: a fresh id updates and reports; a stale id is ignored; an
overflowing addition clamps at `u128::MAX`. -/
theorem new_receipt_saturating_witness :
    handleNewReceipt ⟨3, 10⟩ 5 7 = (⟨5, 17⟩, some ⟨5, 17⟩) ∧
    handleNewReceipt ⟨3, 10⟩ 3 7 = (⟨3, 10⟩, none) ∧
    handleNewReceipt ⟨3, u128Max⟩ 4 1 =
      (⟨4, u128Max⟩, some ⟨4, u128Max⟩) := by
  refine ⟨?_, ?_, ?_⟩
  · have h := (new_receipt_saturating ⟨3, 10⟩ 5 7).1 (by decide)
    rw [h]; decide
  · exact (new_receipt_saturating ⟨3, 10⟩ 3 7).2.1 (by decide)
  · have h := (new_receipt_saturating ⟨3, u128Max⟩ 4 1).1 (by decide)
    rw [h]
    norm_num [u128Max]

/-- C2 counterexample: the claim says the backoff after the n-th failure is
`100 ms * 2^n`, capped at 60 s.  In the source the 60 s bound is taken with
`.max`, a floor: with zero prior failures the duration is 60 s (not 100 ms),
and with 10 prior failures it is 102.4 s, exceeding 60 s. -/
theorem backoff_cap_counterexample :
    (requestRavFailure ⟨0, 0⟩ 0).failedRavBackoff = 60000 ∧
    (requestRavFailure ⟨10, 0⟩ 0).failedRavBackoff = 102400 ∧
    60000 < 102400 ∧ (100 : Nat) * 2 ^ 0 = 100 ∧ (100 : Nat) ≠ 60000 := by
  refine ⟨?_, ?_, by decide, by decide, by decide⟩ <;> decide

/-- C2 amended: after a failure with consecutive-failure counter `n`, the
deadline is now plus `max (100 ms * (2^n mod 2^32)) 60 s` — the 60 s bound
is a floor, so the backoff never drops below 60 s and grows unboundedly —
and the counter increments; a successful request resets the counter to 0. -/
theorem backoff_floor (st : AllocRetryState) (now : Nat)
    (h : st.failedRavsCount < 32) :
    (requestRavFailure st now).failedRavBackoff =
      now + max (100 * 2 ^ st.failedRavsCount) 60000 ∧
    (requestRavFailure st now).failedRavsCount = st.failedRavsCount + 1 ∧
    60000 ≤ backoffDurMs st.failedRavsCount ∧
    (requestRavSuccess st).failedRavsCount = 0 := by
  refine ⟨?_, rfl, le_max_right _ _, rfl⟩
  unfold requestRavFailure backoffDurMs
  rw [Nat.mod_eq_of_lt (Nat.pow_lt_pow_right (by norm_num) h)]

/-- Helper: the drain loop of `post_stop` only terminates with the
unaggregated fees at zero. -/
theorem drainLoop_drained (outs : List RavOutcome) :
    ∀ (fees g : Nat) (es : List CloseEvent),
      drainLoop outs fees = some (es, g) → g = 0 := by
  induction outs with
  | nil =>
    intro fees g es h
    cases fees with
    | zero =>
      simp only [drainLoop, Option.some.injEq, Prod.mk.injEq] at h
      exact h.2.symm
    | succ n => simp [drainLoop] at h
  | cons o rest ih =>
    intro fees g es h
    cases fees with
    | zero =>
      simp only [drainLoop, Option.some.injEq, Prod.mk.injEq] at h
      exact h.2.symm
    | succ n =>
      cases o with
      | success f =>
        cases hd : drainLoop rest f with
        | none => simp [drainLoop, hd] at h
        | some p =>
          simp only [drainLoop, hd, Option.map_some', Option.some.injEq,
            Prod.mk.injEq] at h
          rw [← h.2]
          exact ih f p.2 p.1 (by rw [hd])
      | failure f =>
        cases hd : drainLoop rest f with
        | none => simp [drainLoop, hd] at h
        | some p =>
          simp only [drainLoop, hd, Option.map_some', Option.some.injEq,
            Prod.mk.injEq] at h
          rw [← h.2]
          exact ih f p.2 p.1 (by rw [hd])

/-- Helper: the drain loop never emits the mark-last event. -/
theorem drainLoop_no_markLast (outs : List RavOutcome) :
    ∀ (fees g : Nat) (es : List CloseEvent),
      drainLoop outs fees = some (es, g) → CloseEvent.markLast ∉ es := by
  induction outs with
  | nil =>
    intro fees g es h
    cases fees with
    | zero =>
      simp only [drainLoop, Option.some.injEq, Prod.mk.injEq] at h
      rw [← h.1]
      simp
    | succ n => simp [drainLoop] at h
  | cons o rest ih =>
    intro fees g es h
    cases fees with
    | zero =>
      simp only [drainLoop, Option.some.injEq, Prod.mk.injEq] at h
      rw [← h.1]
      simp
    | succ n =>
      cases o with
      | success f =>
        cases hd : drainLoop rest f with
        | none => simp [drainLoop, hd] at h
        | some p =>
          simp only [drainLoop, hd, Option.map_some', Option.some.injEq,
            Prod.mk.injEq] at h
          rw [← h.1]
          intro hmem
          rcases List.mem_cons.mp hmem with hc | hc
          · cases hc
          · exact ih f p.2 p.1 (by rw [hd]) hc
      | failure f =>
        cases hd : drainLoop rest f with
        | none => simp [drainLoop, hd] at h
        | some p =>
          simp only [drainLoop, hd, Option.map_some', Option.some.injEq,
            Prod.mk.injEq] at h
          rw [← h.1]
          intro hmem
          rcases List.mem_cons.mp hmem with hc | hc
          · cases hc
          · rcases List.mem_cons.mp hc with hc2 | hc2
            · cases hc2
            · exact ih f p.2 p.1 (by rw [hd]) hc2

/-- Helper: `pairMatch` ignores the `last` flag. -/
theorem pairMatch_set_last (s a : Address) (r : RavRow) :
    pairMatch s a { r with last := true } = pairMatch s a r := by
  cases r
  rfl

/-- Helper: after `mark_rav_last`, the rows of the pair that carry
`last = true` are exactly the rows of the pair before the update. -/
theorem markRavLast_count (db : List RavRow) (s a : Address) :
    ((markRavLast db s a).1.countP fun r => pairMatch s a r && r.last) =
      db.countP (pairMatch s a) := by
  induction db with
  | nil => rfl
  | cons r rest ih =>
    simp only [markRavLast, List.map_cons, List.countP_cons] at ih ⊢
    by_cases h : pairMatch s a r
    · simp only [h, if_pos]
      rw [ih]
      cases r
      simp_all [pairMatch]
    · simp only [h]
      rw [if_neg (by simp [h])]
      rw [ih]
      simp [h]

/-- C2 amended witness: concrete failure with counter 3 and a reset. -/
theorem backoff_floor_witness :
    (requestRavFailure ⟨3, 0⟩ 1000).failedRavBackoff = 61000 ∧
    (requestRavFailure ⟨3, 0⟩ 1000).failedRavsCount = 4 ∧
    (requestRavSuccess ⟨3, 61000⟩).failedRavsCount = 0 := by
  have h := backoff_floor ⟨3, 0⟩ 1000 (by decide)
  exact ⟨by rw [h.1]; decide, h.2.1, h.2.2.2⟩

/-- C4: when the aggregator's RAV fails verification, a
`scalar_tap_rav_requests_failed` row holding the expected RAV, the received
RAV and the reason is appended, the pending-receipts table is untouched, the
request counts as a failure, and the retry backoff is applied (deadline set,
consecutive-failure counter incremented). -/
theorem rav_verification_failure (rst : AllocRetryState) (now : Nat)
    (db : AllocDb) (s a : Address) (expected response : Rav)
    (e : RavVerifyError) :
    (requestRavVerify rst now db s a expected response (.invalid e)).2.1.failedRavs
      = db.failedRavs ++ [⟨a, s, expected, response, e⟩] ∧
    (requestRavVerify rst now db s a expected response (.invalid e)).2.1.receipts
      = db.receipts ∧
    (requestRavVerify rst now db s a expected response (.invalid e)).2.2
      = false ∧
    (requestRavVerify rst now db s a expected response (.invalid e)).1
      = requestRavFailure rst now ∧
    (requestRavFailure rst now).failedRavBackoff
      = now + backoffDurMs rst.failedRavsCount ∧
    (requestRavFailure rst now).failedRavsCount = rst.failedRavsCount + 1 :=
  ⟨rfl, rfl, rfl, rfl, rfl, rfl⟩

/-- C3 counterexample: closing an allocation that has no RAV row (zero
unaggregated fees, empty trace) completes, but `mark_rav_last` affects zero
rows — not exactly one — and afterwards zero rows for the pair have
`last = true`, not exactly one. -/
theorem graceful_close_zero_rows_counterexample :
    postStop 0 [] [] 5 9 = some ([CloseEvent.markLast], [], 0) ∧
    (([] : List RavRow).countP fun r => pairMatch 5 9 r && r.last) = 0 ∧
    (0 : Nat) ≠ 1 := by
  refine ⟨rfl, rfl, by decide⟩

/-- C3 amended: on graceful close the actor drains `unaggregated_fees` to
zero — attempting RAV requests, with a 30 s sleep after each failure — and
only then runs `mark_rav_last`, exactly once and as the final step; under
the `(sender, allocation)` uniqueness of the RAV table the mark-last update
affects at most one row (zero rows are tolerated with a warning), and after
the close the rows of the pair carrying `last = true` are exactly the rows
of the pair present in the table — exactly one when a RAV row exists, zero
when none does. -/
theorem graceful_close_marks_last (fees affected : Nat)
    (outs : List RavOutcome) (db db2 : List RavRow) (s a : Address)
    (es : List CloseEvent)
    (huniq : db.countP (pairMatch s a) ≤ 1)
    (hrun : postStop fees outs db s a = some (es, db2, affected)) :
    affected ≤ 1 ∧
    affected = db.countP (pairMatch s a) ∧
    (db2.countP fun r => pairMatch s a r && r.last) =
      db.countP (pairMatch s a) ∧
    es.count CloseEvent.markLast = 1 ∧
    es.getLast? = some CloseEvent.markLast ∧
    (∃ des, drainLoop outs fees = some (des, 0) ∧
      es = des ++ [CloseEvent.markLast]) := by
  unfold postStop at hrun
  cases hd : drainLoop outs fees with
  | none => rw [hd] at hrun; cases hrun
  | some p =>
    obtain ⟨es1, g1⟩ := p
    have hzero : g1 = 0 := drainLoop_drained outs fees g1 es1 hd
    subst hzero
    have hnomark : CloseEvent.markLast ∉ es1 :=
      drainLoop_no_markLast outs fees 0 es1 hd
    rw [hd] at hrun
    simp only [markRavLast] at hrun
    rw [if_pos huniq] at hrun
    simp only [Option.some.injEq, Prod.mk.injEq] at hrun
    obtain ⟨hes, hdb2, haff⟩ := hrun
    refine ⟨haff ▸ huniq, haff.symm, ?_, ?_, ?_, ⟨es1, rfl, hes.symm⟩⟩
    · rw [← hdb2]
      exact markRavLast_count db s a
    · rw [← hes]
      rw [List.count_append]
      rw [List.count_eq_zero.mpr hnomark]
      rfl
    · rw [← hes]
      simp

/-- C3 amended witness: one failed then one successful attempt drain two
units of fees, then the single RAV row of the pair is marked last. -/
theorem graceful_close_marks_last_witness :
    postStop 2 [RavOutcome.failure 2, RavOutcome.success 0]
        [⟨5, 9, false⟩] 5 9 =
      some ([CloseEvent.ravRequest, CloseEvent.sleep30,
             CloseEvent.ravRequest, CloseEvent.markLast],
            [⟨5, 9, true⟩], 1) ∧
    1 ≤ 1 ∧
    ([⟨5, 9, true⟩] : List RavRow).countP
      (fun r => pairMatch 5 9 r && r.last) = 1 := by
  have h := graceful_close_marks_last 2 1
    [RavOutcome.failure 2, RavOutcome.success 0]
    [⟨5, 9, false⟩] [⟨5, 9, true⟩] 5 9
    [CloseEvent.ravRequest, CloseEvent.sleep30,
     CloseEvent.ravRequest, CloseEvent.markLast]
    (by decide) (by decide)
  exact ⟨by decide, h.1, by rw [h.2.2.1]; decide⟩

/-!  ### Helper lemmas for the Sender Actor  -/

/-- Helper: overwriting an association with a value that agrees on `g`
(with `g AllocFee.initial = 0`) leaves the `g`-sum of the list unchanged. -/
theorem sum_map_setAssoc (g : AllocFee → Nat) (h0 : g AllocFee.initial = 0) :
    ∀ (l : List (Address × AllocFee)) (a : Address) (f : AllocFee),
      g f = g (getAssoc l a) →
      ((setAssoc l a f).map fun p => g p.2).sum =
        (l.map fun p => g p.2).sum := by
  intro l
  induction l with
  | nil =>
    intro a f h
    simp only [setAssoc, getAssoc] at h ⊢
    simp [h, h0]
  | cons p rest ih =>
    intro a f h
    simp only [setAssoc, getAssoc] at h ⊢
    by_cases hab : a == p.1
    · rw [if_pos hab] at h ⊢
      simp [h]
    · rw [if_neg hab] at h ⊢
      simp only [List.map_cons, List.sum_cons]
      rw [ih a f h]

/-- Helper: a tracker modification that preserves `totalValue` preserves
the tracked total fee. -/
theorem getTotalFee_modifyAlloc (t : SenderFeeTracker) (a : Address)
    (g : AllocFee → AllocFee) (hg : ∀ f, (g f).totalValue = f.totalValue) :
    (t.modifyAlloc a g).getTotalFee = t.getTotalFee := by
  unfold SenderFeeTracker.modifyAlloc SenderFeeTracker.getTotalFee
    SenderFeeTracker.getAlloc
  exact sum_map_setAssoc (fun f => f.totalValue) rfl t.allocs a _ (hg _)

/-- Helper: the deny condition only reads the RAV tracker, the fee total,
the invalid tracker, the balance and the configuration. -/
theorem denyCond_congr (st1 st2 : SenderState)
    (hr : st1.ravTracker = st2.ravTracker)
    (hi : st1.invalidReceiptsTracker = st2.invalidReceiptsTracker)
    (hb : st1.senderBalance = st2.senderBalance)
    (hc : st1.config = st2.config)
    (hf : st1.senderFeeTracker.getTotalFee =
      st2.senderFeeTracker.getTotalFee) :
    denyConditionReached st1 = denyConditionReached st2 := by
  unfold denyConditionReached
  rw [hr, hi, hb, hc, hf]

/-- Helper: membership in the denylist after an insert. -/
theorem mem_denylistInsert_self (db : Denylist) (s : Address) :
    s ∈ denylistInsert db s := by
  unfold denylistInsert
  split
  · assumption
  · exact List.mem_cons_self _ _

/-- Helper: an insert preserves existing membership. -/
theorem mem_denylistInsert_of_mem (db : Denylist) (s x : Address)
    (h : x ∈ db) : x ∈ denylistInsert db s := by
  unfold denylistInsert
  split
  · exact h
  · exact List.mem_cons_of_mem _ h

/-- Helper: a delete removes the sender from the denylist. -/
theorem not_mem_denylistDelete (db : Denylist) (s : Address) :
    s ∉ denylistDelete db s := by
  unfold denylistDelete
  intro h
  have h2 := (List.mem_filter.mp h).2
  simp at h2

/-- Helper: fields preserved by the pre-deny-check part of
`UpdateReceiptFees` handling; the scheduled retry is aborted, the denied
flag and the sender are untouched, the denylist is only touched (by a
re-insert) when the sender is already denied. -/
theorem applyReceiptFees_fields (st : SenderState) (db : Denylist)
    (a : Address) (rf : ReceiptFees) :
    (applyReceiptFees st db a rf).1.denied = st.denied ∧
    (applyReceiptFees st db a rf).1.sender = st.sender ∧
    (applyReceiptFees st db a rf).1.scheduledRavRequest = none ∧
    (st.denied = false → (applyReceiptFees st db a rf).2 = db) ∧
    (st.sender ∈ db → st.sender ∈ (applyReceiptFees st db a rf).2) := by
  cases rf with
  | newReceipt v ts =>
    refine ⟨rfl, rfl, rfl, fun h => ?_, fun h => ?_⟩
    · simp [applyReceiptFees, h]
    · by_cases hd : st.denied
      · simp only [applyReceiptFees, hd]
        simpa using mem_denylistInsert_of_mem db st.sender st.sender h
      · simp [applyReceiptFees, hd, h]
  | updateValue fees => exact ⟨rfl, rfl, rfl, fun _ => rfl, fun h => h⟩
  | ravRequestResponse fees result =>
    cases result with
    | ok rav => exact ⟨rfl, rfl, rfl, fun _ => rfl, fun h => h⟩
    | err => exact ⟨rfl, rfl, rfl, fun _ => rfl, fun h => h⟩
  | retry => exact ⟨rfl, rfl, rfl, fun _ => rfl, fun h => h⟩

/-- Helper: setting the denied flag or the scheduled retry does not change
the deny condition. -/
theorem denyCond_set_denied (st : SenderState) (b : Bool) :
    denyConditionReached { st with denied := b } = denyConditionReached st :=
  rfl

/-- Helper: the deny check does nothing for an already denied sender. -/
theorem denyCheck_of_denied (st : SenderState) (db : Denylist)
    (hd : st.denied = true) : denyCheck st db = (st, db) := by
  simp [denyCheck, hd]

/-- Helper: the deny check denies a sender whose condition holds. -/
theorem denyCheck_fires (st : SenderState) (db : Denylist)
    (hd : st.denied = false) (hc : denyConditionReached st = true) :
    denyCheck st db =
      ({ st with denied := true }, denylistInsert db st.sender) := by
  simp [denyCheck, hd, hc]

/-- Helper: the deny check does nothing when the condition is false. -/
theorem denyCheck_noop (st : SenderState) (db : Denylist)
    (hd : st.denied = false) (hc : denyConditionReached st = false) :
    denyCheck st db = (st, db) := by
  simp [denyCheck, hd, hc]

/-- Helper: the deny check leaves the sender address unchanged. -/
theorem denyCheck_sender (st : SenderState) (db : Denylist) :
    (denyCheck st db).1.sender = st.sender := by
  unfold denyCheck
  split <;> rfl

/-- Helper: the deny check leaves the scheduled retry unchanged. -/
theorem denyCheck_sched (st : SenderState) (db : Denylist) :
    (denyCheck st db).1.scheduledRavRequest = st.scheduledRavRequest := by
  unfold denyCheck
  split <;> rfl

/-- Helper: the deny check leaves the deny condition unchanged. -/
theorem denyCond_denyCheck (st : SenderState) (db : Denylist) :
    denyConditionReached (denyCheck st db).1 = denyConditionReached st := by
  unfold denyCheck
  split <;> rfl

/-- Helper: the deny check preserves denylist membership. -/
theorem mem_denyCheck (st : SenderState) (db : Denylist)
    (h : st.sender ∈ db) : st.sender ∈ (denyCheck st db).2 := by
  unfold denyCheck
  split
  · exact mem_denylistInsert_of_mem db st.sender st.sender h
  · exact h

/-- Helper: the denied flag after the deny check. -/
theorem denyCheck_denied (st : SenderState) (db : Denylist) :
    (denyCheck st db).1.denied = (st.denied || denyConditionReached st) := by
  cases hd : st.denied
  · cases hc : denyConditionReached st
    · rw [denyCheck_noop st db hd hc]
      simp [hd, hc]
    · rw [denyCheck_fires st db hd hc]
      simp
  · rw [denyCheck_of_denied st db hd, hd]
    simp

/-- Helper: the RAV trigger decision only touches the fee tracker's flags,
the limiter and the global backoff: the denied flag, the sender, the
scheduled retry, the other trackers, the balance, the configuration and
the tracked fee total are unchanged. -/
theorem ravTriggerStep_fields (st : SenderState) (a : Address) :
    (ravTriggerStep st a).1.denied = st.denied ∧
    (ravTriggerStep st a).1.sender = st.sender ∧
    (ravTriggerStep st a).1.scheduledRavRequest = st.scheduledRavRequest ∧
    (ravTriggerStep st a).1.ravTracker = st.ravTracker ∧
    (ravTriggerStep st a).1.invalidReceiptsTracker =
      st.invalidReceiptsTracker ∧
    (ravTriggerStep st a).1.senderBalance = st.senderBalance ∧
    (ravTriggerStep st a).1.config = st.config ∧
    (ravTriggerStep st a).1.senderFeeTracker.getTotalFee =
      st.senderFeeTracker.getTotalFee := by
  unfold ravTriggerStep SenderState.ravRequestForAllocation
  by_cases h1 : st.limiter.hasLimit
  · rw [if_pos h1]
    by_cases h2 : (!(st.backoffInfo.inBackoff st.now) &&
        decide (st.config.triggerValue ≤
          st.senderFeeTracker.getRavableTotalFee st.now)) = true
    · rw [if_pos h2]
      cases hh : st.senderFeeTracker.getHeaviestAllocationId st.now with
      | none => exact ⟨rfl, rfl, rfl, rfl, rfl, rfl, rfl, rfl⟩
      | some h =>
        refine ⟨rfl, rfl, rfl, rfl, rfl, rfl, rfl, ?_⟩
        exact getTotalFee_modifyAlloc _ h _ (fun f => rfl)
    · rw [if_neg h2]
      by_cases h3 : (decide (st.config.ravRequestReceiptLimit ≤
          st.senderFeeTracker.getCountOutsideBufferForAllocation st.now a) &&
          st.senderFeeTracker.canTriggerRav st.now a) = true
      · rw [if_pos h3]
        refine ⟨rfl, rfl, rfl, rfl, rfl, rfl, rfl, ?_⟩
        exact getTotalFee_modifyAlloc _ a _ (fun f => rfl)
      · rw [if_neg h3]
        exact ⟨rfl, rfl, rfl, rfl, rfl, rfl, rfl, rfl⟩
  · rw [if_neg h1]
    exact ⟨rfl, rfl, rfl, rfl, rfl, rfl, rfl, rfl⟩

/-- Helper: the RAV trigger decision does not change the deny condition. -/
theorem denyCond_ravTriggerStep (st : SenderState) (a : Address) :
    denyConditionReached (ravTriggerStep st a).1 = denyConditionReached st := by
  have h := ravTriggerStep_fields st a
  exact denyCond_congr _ _ h.2.2.2.1 h.2.2.2.2.1 h.2.2.2.2.2.1
    h.2.2.2.2.2.2.1 h.2.2.2.2.2.2.2

/-- Helper: the denied flag is unchanged by the RAV trigger decision. -/
theorem ravTriggerStep_denied (st : SenderState) (a : Address) :
    (ravTriggerStep st a).1.denied = st.denied :=
  (ravTriggerStep_fields st a).1

/-- Helper: the sender is unchanged by the RAV trigger decision. -/
theorem ravTriggerStep_sender (st : SenderState) (a : Address) :
    (ravTriggerStep st a).1.sender = st.sender :=
  (ravTriggerStep_fields st a).2.1

/-- Helper: the scheduled retry is unchanged by the RAV trigger decision. -/
theorem ravTriggerStep_sched (st : SenderState) (a : Address) :
    (ravTriggerStep st a).1.scheduledRavRequest = st.scheduledRavRequest :=
  (ravTriggerStep_fields st a).2.2.1

/-- Helper: setting the scheduled retry does not change the deny
condition. -/
theorem denyCond_set_sched (st : SenderState) (x : Option Address) :
    denyConditionReached { st with scheduledRavRequest := x } =
      denyConditionReached st :=
  rfl

/-- Helper: a positive ravable total means some candidate exists, so
`get_heaviest_allocation_id` returns an allocation. -/
theorem getHeaviest_exists (t : SenderFeeTracker) (now : Nat)
    (h : 0 < t.getRavableTotalFee now) :
    ∃ a, t.getHeaviestAllocationId now = some a := by
  unfold SenderFeeTracker.getHeaviestAllocationId
  cases hf : t.allocs.filter
      (fun p => decide (0 < p.2.ravableFee t.buffer now)) with
  | cons c rest => exact ⟨_, rfl⟩
  | nil =>
    exfalso
    have hall : ∀ p ∈ t.allocs, p.2.ravableFee t.buffer now = 0 := by
      intro p hp
      have h2 := List.filter_eq_nil_iff.mp hf p hp
      simp only [decide_eq_true_eq, Nat.pos_iff_ne_zero] at h2
      omega
    have hz : t.getRavableTotalFee now = 0 := by
      unfold SenderFeeTracker.getRavableTotalFee
      apply List.sum_eq_zero
      intro x hx
      obtain ⟨p, hp, hpx⟩ := List.mem_map.mp hx
      rw [← hpx]
      exact hall p hp
    omega

/-- Helper: the full case analysis of the RAV trigger decision. -/
theorem ravTriggerStep_spec (st : SenderState) (a : Address) :
    (st.limiter.hasLimit = false → (ravTriggerStep st a).2 = []) ∧
    (st.limiter.hasLimit = true →
      st.backoffInfo.inBackoff st.now = false →
      st.config.triggerValue ≤ st.senderFeeTracker.getRavableTotalFee st.now →
      0 < st.config.triggerValue →
      ∃ h, st.senderFeeTracker.getHeaviestAllocationId st.now = some h ∧
        (ravTriggerStep st a).2 = [h]) ∧
    (st.limiter.hasLimit = true →
      (st.backoffInfo.inBackoff st.now = true ∨
        st.senderFeeTracker.getRavableTotalFee st.now <
          st.config.triggerValue) →
      st.config.ravRequestReceiptLimit ≤
        st.senderFeeTracker.getCountOutsideBufferForAllocation st.now a →
      st.senderFeeTracker.canTriggerRav st.now a = true →
      (ravTriggerStep st a).2 = [a]) ∧
    (st.limiter.hasLimit = true →
      (st.backoffInfo.inBackoff st.now = true ∨
        st.senderFeeTracker.getRavableTotalFee st.now <
          st.config.triggerValue) →
      ¬(st.config.ravRequestReceiptLimit ≤
          st.senderFeeTracker.getCountOutsideBufferForAllocation st.now a ∧
        st.senderFeeTracker.canTriggerRav st.now a = true) →
      (ravTriggerStep st a).2 = []) := by
  refine ⟨fun h1 => ?_, fun h1 h2 h3 h4 => ?_, fun h1 h2 h3 h4 => ?_,
    fun h1 h2 h3 => ?_⟩
  · unfold ravTriggerStep
    rw [if_neg (by simp [h1])]
  · have hpos : 0 < st.senderFeeTracker.getRavableTotalFee st.now :=
      Nat.lt_of_lt_of_le h4 h3
    obtain ⟨hv, hh⟩ := getHeaviest_exists st.senderFeeTracker st.now hpos
    refine ⟨hv, hh, ?_⟩
    unfold ravTriggerStep
    rw [if_pos h1, if_pos (by simp [h2, h3]), hh]
  · unfold ravTriggerStep
    rw [if_pos h1, if_neg ?_, if_pos (by simp [h3, h4])]
    rcases h2 with hb | hr
    · simp [hb]
    · simp [Nat.not_le.mpr hr]
  · unfold ravTriggerStep
    rw [if_pos h1, if_neg ?_, if_neg ?_]
    · intro hcc
      simp only [Bool.and_eq_true, decide_eq_true_eq] at hcc
      exact h3 hcc
    · rcases h2 with hb | hr
      · simp [hb]
      · simp [Nat.not_le.mpr hr]

/-- Helper: the requests issued by the `UpdateReceiptFees` handler are
exactly those of its RAV trigger decision. -/
theorem handleURF_reqs (st : SenderState) (db : Denylist) (a : Address)
    (rf : ReceiptFees) :
    (handleUpdateReceiptFees st db a rf).2.2 =
      (ravTriggerStep (midState st db a rf).1 a).2 := by
  unfold handleUpdateReceiptFees
  cases hd : (ravTriggerStep (midState st db a rf).1 a).1.denied <;>
    cases hc : denyConditionReached
      (ravTriggerStep (midState st db a rf).1 a).1 <;>
    simp [hd, hc]

/-- Helper: a not-yet-denied sender whose deny condition holds after the
fee update of an `UpdateReceiptFees` message ends the round denied and in
the denylist. -/
theorem handleURF_deny (st : SenderState) (db : Denylist) (a : Address)
    (rf : ReceiptFees) (hden : st.denied = false)
    (hcond :
      denyConditionReached (handleUpdateReceiptFees st db a rf).1 = true) :
    (handleUpdateReceiptFees st db a rf).1.denied = true ∧
    st.sender ∈ (handleUpdateReceiptFees st db a rf).2.1 := by
  have hAf := applyReceiptFees_fields st db a rf
  have hAd : (applyReceiptFees st db a rf).1.denied = false :=
    hAf.1.trans hden
  by_cases hc :
      denyConditionReached (applyReceiptFees st db a rf).1 = true
  · have hfire := denyCheck_fires (applyReceiptFees st db a rf).1
      (applyReceiptFees st db a rf).2 hAd hc
    unfold handleUpdateReceiptFees midState at hcond ⊢
    rw [hfire] at hcond ⊢
    simp only [ravTriggerStep_denied, denyCond_ravTriggerStep,
      denyCond_set_denied, hc] at hcond ⊢
    refine ⟨by simp [ravTriggerStep_denied], ?_⟩
    rw [hAf.2.1]
    exact mem_denylistInsert_self (applyReceiptFees st db a rf).2 st.sender
  · have hc2 :
        denyConditionReached (applyReceiptFees st db a rf).1 = false := by
      simpa using hc
    have hnoop := denyCheck_noop (applyReceiptFees st db a rf).1
      (applyReceiptFees st db a rf).2 hAd hc2
    unfold handleUpdateReceiptFees midState at hcond
    rw [hnoop] at hcond
    simp only [ravTriggerStep_denied, hAd] at hcond
    rw [denyCond_ravTriggerStep, hc2] at hcond
    cases hcond

/-- Helper: the same property for the `UpdateBalanceAndLastRavs` handler. -/
theorem handleBal_deny (st : SenderState) (db : Denylist) (balance : Nat)
    (ravs : List (Address × Nat)) (hden : st.denied = false)
    (hcond : denyConditionReached
      (handleMsg st db (.updateBalanceAndLastRavs balance ravs)).1 = true) :
    (handleMsg st db (.updateBalanceAndLastRavs balance ravs)).1.denied
      = true ∧
    st.sender ∈
      (handleMsg st db (.updateBalanceAndLastRavs balance ravs)).2.1 := by
  have hd2 : (reconcileBalance st balance ravs).denied = false := hden
  by_cases hc :
      denyConditionReached (reconcileBalance st balance ravs) = true
  · unfold handleMsg at hcond ⊢
    simp only [hd2, hc] at hcond ⊢
    exact ⟨trivial, mem_denylistInsert_self db _⟩
  · have hc2 :
        denyConditionReached (reconcileBalance st balance ravs) = false := by
      simpa using hc
    unfold handleMsg at hcond
    simp only [hd2, hc2] at hcond
    cases hcond

/-- C1: the Sender Actor's deny condition holds exactly when
`pending_ravs + unaggregated_fees ≥ sender_balance` or
`unaggregated_fees + invalid_receipt_fees ≥ max_amount_willing_to_lose`
(given that the `u128` sums do not overflow), and whenever the condition
holds after a fee-update message is processed for a sender not yet denied,
that round ends with the denied flag set and the sender in the denylist. -/
theorem deny_condition_and_trigger (st : SenderState) (db : Denylist)
    (msg : SenderMessage)
    (h1 : simpleTotal st.ravTracker + st.senderFeeTracker.getTotalFee
      < 2 ^ 128)
    (h2 : st.senderFeeTracker.getTotalFee +
      simpleTotal st.invalidReceiptsTracker < 2 ^ 128) :
    (denyConditionReached st = true ↔
      (st.senderBalance ≤
        simpleTotal st.ravTracker + st.senderFeeTracker.getTotalFee ∨
       st.config.maxAmountWillingToLose ≤
        st.senderFeeTracker.getTotalFee +
          simpleTotal st.invalidReceiptsTracker)) ∧
    (st.denied = false →
      denyConditionReached (handleMsg st db msg).1 = true →
      (handleMsg st db msg).1.denied = true ∧
      st.sender ∈ (handleMsg st db msg).2.1) := by
  constructor
  · simp only [denyConditionReached]
    rw [Nat.mod_eq_of_lt h1, Nat.mod_eq_of_lt h2]
    simp only [Bool.or_eq_true, decide_eq_true_eq]
    tauto
  · intro hden hcond
    cases msg with
    | updateReceiptFees a rf => exact handleURF_deny st db a rf hden hcond
    | updateInvalidReceiptFees a fees =>
      simp only [handleMsg] at hcond ⊢
      rw [denyCond_denyCheck] at hcond
      rw [denyCheck_fires
        { st with
            invalidReceiptsTracker :=
              simpleUpdate st.invalidReceiptsTracker a fees.value }
        db hden hcond]
      exact ⟨rfl, mem_denylistInsert_self db st.sender⟩
    | updateRav rav =>
      simp only [handleMsg] at hcond ⊢
      rw [denyCond_denyCheck] at hcond
      rw [denyCheck_fires
        (st.updateRavTracker rav.allocationId rav.valueAggregate)
        db hden hcond]
      exact ⟨rfl, mem_denylistInsert_self db st.sender⟩
    | updateBalanceAndLastRavs balance ravs =>
      exact handleBal_deny st db balance ravs hden hcond

/-- C1 witness: a fresh sender with zero balance reaches the deny
condition, and an `UpdateRav` round denies it and inserts the denylist
row. -/
theorem deny_condition_and_trigger_witness :
    denyConditionReached (initSenderState 1 [] 0 [] 0 ⟨0, 0, 0⟩ 0) = true ∧
    (handleMsg (initSenderState 1 [] 0 [] 0 ⟨0, 0, 0⟩ 0) []
      (SenderMessage.updateRav ⟨2, 5⟩)).1.denied = true ∧
    (1 : Address) ∈ (handleMsg (initSenderState 1 [] 0 [] 0 ⟨0, 0, 0⟩ 0) []
      (SenderMessage.updateRav ⟨2, 5⟩)).2.1 := by
  have h := deny_condition_and_trigger
    (initSenderState 1 [] 0 [] 0 ⟨0, 0, 0⟩ 0) []
    (SenderMessage.updateRav ⟨2, 5⟩) (by decide) (by decide)
  have h2 := h.2 (by decide) (by decide)
  exact ⟨h.1.mpr (Or.inl (by decide)), h2.1, h2.2⟩

/-- Helper: the state entering the RAV trigger decision carries no
scheduled retry — the handler aborts it on entry. -/
theorem midState_sched (st : SenderState) (db : Denylist) (a : Address)
    (rf : ReceiptFees) :
    (midState st db a rf).1.scheduledRavRequest = none := by
  unfold midState
  rw [denyCheck_sched]
  exact (applyReceiptFees_fields st db a rf).2.2.1

/-- Helper: the sender address survives the fee update and deny check. -/
theorem midState_sender (st : SenderState) (db : Denylist) (a : Address)
    (rf : ReceiptFees) :
    (midState st db a rf).1.sender = st.sender := by
  unfold midState
  rw [denyCheck_sender]
  exact (applyReceiptFees_fields st db a rf).2.1

/-- Helper: the three outcomes of the final denied transition of the
`UpdateReceiptFees` handler, by the flag and condition after the RAV
trigger decision. -/
theorem handleURF_cases (st : SenderState) (db : Denylist) (a : Address)
    (rf : ReceiptFees) :
    ((ravTriggerStep (midState st db a rf).1 a).1.denied = true →
      denyConditionReached (ravTriggerStep (midState st db a rf).1 a).1
        = true →
      handleUpdateReceiptFees st db a rf =
        ({ (ravTriggerStep (midState st db a rf).1 a).1 with
            scheduledRavRequest := some a },
         (midState st db a rf).2,
         (ravTriggerStep (midState st db a rf).1 a).2)) ∧
    ((ravTriggerStep (midState st db a rf).1 a).1.denied = true →
      denyConditionReached (ravTriggerStep (midState st db a rf).1 a).1
        = false →
      handleUpdateReceiptFees st db a rf =
        ({ (ravTriggerStep (midState st db a rf).1 a).1 with
            denied := false },
         denylistDelete (midState st db a rf).2
           (ravTriggerStep (midState st db a rf).1 a).1.sender,
         (ravTriggerStep (midState st db a rf).1 a).2)) ∧
    ((ravTriggerStep (midState st db a rf).1 a).1.denied = false →
      handleUpdateReceiptFees st db a rf =
        ((ravTriggerStep (midState st db a rf).1 a).1,
         (midState st db a rf).2,
         (ravTriggerStep (midState st db a rf).1 a).2)) := by
  refine ⟨fun h1 h2 => ?_, fun h1 h2 => ?_, fun h1 => ?_⟩
  · unfold handleUpdateReceiptFees
    simp only [h1, h2]
  · unfold handleUpdateReceiptFees
    simp only [h1, h2]
  · unfold handleUpdateReceiptFees
    cases h2 : denyConditionReached
        (ravTriggerStep (midState st db a rf).1 a).1 <;>
      simp only [h1, h2]

/-- Helper: the `UpdateReceiptFees` handler ignores the previously
scheduled retry: its first step replaces it. -/
theorem applyReceiptFees_sched_irrel (st : SenderState) (db : Denylist)
    (a : Address) (rf : ReceiptFees) (x : Option Address) :
    applyReceiptFees { st with scheduledRavRequest := x } db a rf =
      applyReceiptFees st db a rf := by
  cases st
  cases rf <;> rfl

/-- C9: after any `UpdateReceiptFees` round, a retry is scheduled exactly
when the sender ends the round denied with the deny condition still
holding (cancelling any prior schedule); every arriving
`UpdateReceiptFees` message first aborts the pending scheduled retry (the
handler result does not depend on it); and a denied sender whose deny
condition no longer holds at the end of the round leaves it with the
denied flag cleared and its denylist row deleted — so handling the
scheduled `Retry` message re-admits it one round after `retry_interval`. -/
theorem retry_scheduling (st : SenderState) (db : Denylist) (a : Address)
    (rf : ReceiptFees) :
    ((handleUpdateReceiptFees st db a rf).1.scheduledRavRequest =
      if (handleUpdateReceiptFees st db a rf).1.denied = true ∧
          denyConditionReached (handleUpdateReceiptFees st db a rf).1 = true
      then some a else none) ∧
    (∀ x : Option Address,
      handleUpdateReceiptFees { st with scheduledRavRequest := x } db a rf =
        handleUpdateReceiptFees st db a rf) ∧
    (st.denied = true →
      denyConditionReached (handleUpdateReceiptFees st db a rf).1 = false →
      (handleUpdateReceiptFees st db a rf).1.denied = false ∧
      st.sender ∉ (handleUpdateReceiptFees st db a rf).2.1) := by
  have hC := handleURF_cases st db a rf
  refine ⟨?_, fun x => ?_, fun hden hcond => ?_⟩
  · by_cases hd :
        (ravTriggerStep (midState st db a rf).1 a).1.denied = true
    · by_cases hc : denyConditionReached
          (ravTriggerStep (midState st db a rf).1 a).1 = true
      · rw [hC.1 hd hc]
        rw [denyCond_set_sched
          ((ravTriggerStep (midState st db a rf).1 a).1) (some a)]
        simp [hd, hc]
      · have hc2 : denyConditionReached
            (ravTriggerStep (midState st db a rf).1 a).1 = false := by
          simpa using hc
        rw [hC.2.1 hd hc2]
        simp [ravTriggerStep_sched, midState_sched]
    · have hd2 :
          (ravTriggerStep (midState st db a rf).1 a).1.denied = false := by
        simpa using hd
      rw [hC.2.2 hd2]
      simp [hd2, ravTriggerStep_sched, midState_sched]
  · unfold handleUpdateReceiptFees midState
    rw [applyReceiptFees_sched_irrel]
  · have hMd : (midState st db a rf).1.denied = true := by
      unfold midState
      rw [denyCheck_denied]
      rw [(applyReceiptFees_fields st db a rf).1, hden]
      rfl
    have hd : (ravTriggerStep (midState st db a rf).1 a).1.denied = true :=
      (ravTriggerStep_denied _ a).trans hMd
    by_cases hc : denyConditionReached
        (ravTriggerStep (midState st db a rf).1 a).1 = true
    · rw [hC.1 hd hc] at hcond
      rw [denyCond_set_sched
        ((ravTriggerStep (midState st db a rf).1 a).1) (some a),
        hc] at hcond
      cases hcond
    · have hc2 : denyConditionReached
          (ravTriggerStep (midState st db a rf).1 a).1 = false := by
        simpa using hc
      rw [hC.2.1 hd hc2]
      refine ⟨rfl, ?_⟩
      rw [ravTriggerStep_sender, midState_sender]
      exact not_mem_denylistDelete (midState st db a rf).2 st.sender

/-- C9 witness: a denied sender with comfortable balance and tolerance
handling a `Retry` message ends the round re-admitted, with no scheduled
retry and no denylist row. -/
theorem retry_scheduling_witness :
    (handleUpdateReceiptFees
        { initSenderState 1 [1] 50 [] 0 ⟨100, 10, 10⟩ 0 with
            scheduledRavRequest := some 2 } [1] 2
        ReceiptFees.retry).1.denied = false ∧
    (1 : Address) ∉ (handleUpdateReceiptFees
        { initSenderState 1 [1] 50 [] 0 ⟨100, 10, 10⟩ 0 with
            scheduledRavRequest := some 2 } [1] 2
        ReceiptFees.retry).2.1 ∧
    (handleUpdateReceiptFees
        { initSenderState 1 [1] 50 [] 0 ⟨100, 10, 10⟩ 0 with
            scheduledRavRequest := some 2 } [1] 2
        ReceiptFees.retry).1.scheduledRavRequest = none := by
  have h := retry_scheduling
    { initSenderState 1 [1] 50 [] 0 ⟨100, 10, 10⟩ 0 with
        scheduledRavRequest := some 2 } [1] 2 ReceiptFees.retry
  have h3 := h.2.2 (by decide) (by decide)
  refine ⟨h3.1, h3.2, ?_⟩
  rw [h.1]
  simp [h3.1]

/-- Helper: the fee-update step preserves denial soundness. -/
theorem applyReceiptFees_consistent (st : SenderState) (db : Denylist)
    (a : Address) (rf : ReceiptFees) (h : deniedConsistent st db) :
    deniedConsistent (applyReceiptFees st db a rf).1
      (applyReceiptFees st db a rf).2 := by
  have hf := applyReceiptFees_fields st db a rf
  have h2 : st.denied = true ↔ st.sender ∈ db := h
  unfold deniedConsistent
  rw [hf.1, hf.2.1]
  cases hd : st.denied
  · rw [hf.2.2.2.1 hd]
    rw [hd] at h2
    exact h2
  · exact iff_of_true rfl (hf.2.2.2.2 (h2.mp hd))

/-- Helper: the eager deny check preserves denial soundness. -/
theorem denyCheck_consistent (st : SenderState) (db : Denylist)
    (h : deniedConsistent st db) :
    deniedConsistent (denyCheck st db).1 (denyCheck st db).2 := by
  cases hd : st.denied
  · cases hc : denyConditionReached st
    · rw [denyCheck_noop st db hd hc]
      exact h
    · rw [denyCheck_fires st db hd hc]
      exact iff_of_true rfl (mem_denylistInsert_self db st.sender)
  · rw [denyCheck_of_denied st db hd]
    exact h

/-- Helper: the full `UpdateReceiptFees` round preserves denial
soundness. -/
theorem handleURF_consistent (st : SenderState) (db : Denylist)
    (a : Address) (rf : ReceiptFees) (h : deniedConsistent st db) :
    deniedConsistent (handleUpdateReceiptFees st db a rf).1
      (handleUpdateReceiptFees st db a rf).2.1 := by
  have hC := handleURF_cases st db a rf
  have hM : deniedConsistent (midState st db a rf).1
      (midState st db a rf).2 := by
    unfold midState
    exact denyCheck_consistent _ _ (applyReceiptFees_consistent st db a rf h)
  have hM2 : (midState st db a rf).1.denied = true ↔
      (midState st db a rf).1.sender ∈ (midState st db a rf).2 := hM
  cases hTd : (ravTriggerStep (midState st db a rf).1 a).1.denied
  · rw [hC.2.2 hTd]
    unfold deniedConsistent
    rw [ravTriggerStep_denied, ravTriggerStep_sender]
    exact hM2
  · cases hc : denyConditionReached
        (ravTriggerStep (midState st db a rf).1 a).1
    · rw [hC.2.1 hTd hc]
      refine iff_of_false (by simp) ?_
      rw [ravTriggerStep_sender]
      exact not_mem_denylistDelete _ _
    · rw [hC.1 hTd hc]
      refine iff_of_true (by simp [hTd]) ?_
      have hs : (ravTriggerStep (midState st db a rf).1 a).1.sender =
          (midState st db a rf).1.sender := ravTriggerStep_sender _ a
      show (ravTriggerStep (midState st db a rf).1 a).1.sender ∈
        (midState st db a rf).2
      rw [hs]
      exact hM2.mp ((ravTriggerStep_denied _ a).symm.trans hTd)

/-- Helper: every Sender Actor message round preserves denial soundness. -/
theorem handleMsg_consistent (st : SenderState) (db : Denylist)
    (msg : SenderMessage) (h : deniedConsistent st db) :
    deniedConsistent (handleMsg st db msg).1 (handleMsg st db msg).2.1 := by
  cases msg with
  | updateReceiptFees a rf => exact handleURF_consistent st db a rf h
  | updateInvalidReceiptFees a fees =>
    simp only [handleMsg]
    exact denyCheck_consistent _ db h
  | updateRav rav =>
    simp only [handleMsg]
    exact denyCheck_consistent _ db h
  | updateBalanceAndLastRavs balance ravs =>
    have h2 : st.denied = true ↔ st.sender ∈ db := h
    cases hd : st.denied
    · have hdr : (reconcileBalance st balance ravs).denied = false := hd
      cases hc : denyConditionReached (reconcileBalance st balance ravs)
      · simp only [handleMsg, hdr, hc]
        exact h
      · simp only [handleMsg, hdr, hc]
        exact iff_of_true rfl (mem_denylistInsert_self db _)
    · have hdr : (reconcileBalance st balance ravs).denied = true := hd
      cases hc : denyConditionReached (reconcileBalance st balance ravs)
      · simp only [handleMsg, hdr, hc]
        exact iff_of_false (by simp) (not_mem_denylistDelete db _)
      · simp only [handleMsg, hdr, hc]
        exact h

/-- Helper: denial soundness is preserved along any message sequence. -/
theorem runMsgs_consistent (msgs : List SenderMessage) :
    ∀ (st : SenderState) (db : Denylist), deniedConsistent st db →
      deniedConsistent (runMsgs st db msgs).1 (runMsgs st db msgs).2 := by
  induction msgs with
  | nil => intro st db h; exact h
  | cons m rest ih =>
    intro st db h
    simp only [runMsgs]
    exact ih _ _ (handleMsg_consistent st db m h)

/-- C7: on actor start the denied flag is loaded from the denylist table,
and after any sequence of handled messages starting from a consistent
state, `denied = true` holds exactly when the sender is in the denylist
table — so a persisted denial survives restart and the flag never
disagrees with the table. -/
theorem denial_soundness (sender : Address) (db0 : Denylist)
    (balance : Nat) (allocationIds : List Address) (buffer : Nat)
    (cfg : SenderConfig) (now : Nat) (msgs : List SenderMessage)
    (st : SenderState) (db : Denylist) (h : deniedConsistent st db) :
    ((initSenderState sender db0 balance allocationIds buffer cfg
        now).denied = true ↔ sender ∈ db0) ∧
    deniedConsistent
      (initSenderState sender db0 balance allocationIds buffer cfg now)
      db0 ∧
    deniedConsistent (runMsgs st db msgs).1 (runMsgs st db msgs).2 := by
  refine ⟨by simp [initSenderState], by
    show decide (sender ∈ db0) = true ↔ sender ∈ db0
    simp, runMsgs_consistent msgs st db h⟩

/-- C7 witness: a sender denied in the table starts denied, and a concrete
run of messages keeps flag and table in agreement. -/
theorem denial_soundness_witness :
    ((initSenderState 7 [7] 100 [] 0 ⟨10, 5, 5⟩ 0).denied = true ↔
      (7 : Address) ∈ ([7] : Denylist)) ∧
    deniedConsistent
      (runMsgs (initSenderState 7 [7] 100 [] 0 ⟨10, 5, 5⟩ 0) [7]
        [SenderMessage.updateReceiptFees 3 ReceiptFees.retry,
         SenderMessage.updateRav ⟨3, 4⟩]).1
      (runMsgs (initSenderState 7 [7] 100 [] 0 ⟨10, 5, 5⟩ 0) [7]
        [SenderMessage.updateReceiptFees 3 ReceiptFees.retry,
         SenderMessage.updateRav ⟨3, 4⟩]).2 := by
  have h := denial_soundness 7 [7] 100 [] 0 ⟨10, 5, 5⟩ 0
    [SenderMessage.updateReceiptFees 3 ReceiptFees.retry,
     SenderMessage.updateRav ⟨3, 4⟩]
    (initSenderState 7 [7] 100 [] 0 ⟨10, 5, 5⟩ 0) [7]
    (by unfold deniedConsistent; decide)
  exact ⟨h.1, h.2.2⟩

/-- C6: at the end of an `UpdateReceiptFees` round (conditions read on the
state entering the decision, after fee update and deny check): no RAV
request is issued without a free limiter slot; with a slot, outside the
global backoff and with the ravable total at or above `trigger_value`
(taken positive), a request is sent for the heaviest allocation; otherwise
with the allocation's receipt count outside the buffer at or above
`rav_request_receipt_limit` and the allocation able to trigger, a request
is sent for that allocation; otherwise no request is made. -/
theorem rav_trigger_decision (st : SenderState) (db : Denylist)
    (a : Address) (rf : ReceiptFees) :
    ((midState st db a rf).1.limiter.hasLimit = false →
      (handleUpdateReceiptFees st db a rf).2.2 = []) ∧
    ((midState st db a rf).1.limiter.hasLimit = true →
      (midState st db a rf).1.backoffInfo.inBackoff
        (midState st db a rf).1.now = false →
      (midState st db a rf).1.config.triggerValue ≤
        (midState st db a rf).1.senderFeeTracker.getRavableTotalFee
          (midState st db a rf).1.now →
      0 < (midState st db a rf).1.config.triggerValue →
      ∃ h, (midState st db a rf).1.senderFeeTracker.getHeaviestAllocationId
          (midState st db a rf).1.now = some h ∧
        (handleUpdateReceiptFees st db a rf).2.2 = [h]) ∧
    ((midState st db a rf).1.limiter.hasLimit = true →
      ((midState st db a rf).1.backoffInfo.inBackoff
          (midState st db a rf).1.now = true ∨
        (midState st db a rf).1.senderFeeTracker.getRavableTotalFee
          (midState st db a rf).1.now <
          (midState st db a rf).1.config.triggerValue) →
      (midState st db a rf).1.config.ravRequestReceiptLimit ≤
        SenderFeeTracker.getCountOutsideBufferForAllocation
          (midState st db a rf).1.senderFeeTracker
          (midState st db a rf).1.now a →
      (midState st db a rf).1.senderFeeTracker.canTriggerRav
        (midState st db a rf).1.now a = true →
      (handleUpdateReceiptFees st db a rf).2.2 = [a]) ∧
    ((midState st db a rf).1.limiter.hasLimit = true →
      ((midState st db a rf).1.backoffInfo.inBackoff
          (midState st db a rf).1.now = true ∨
        (midState st db a rf).1.senderFeeTracker.getRavableTotalFee
          (midState st db a rf).1.now <
          (midState st db a rf).1.config.triggerValue) →
      ¬((midState st db a rf).1.config.ravRequestReceiptLimit ≤
          SenderFeeTracker.getCountOutsideBufferForAllocation
            (midState st db a rf).1.senderFeeTracker
            (midState st db a rf).1.now a ∧
        (midState st db a rf).1.senderFeeTracker.canTriggerRav
          (midState st db a rf).1.now a = true) →
      (handleUpdateReceiptFees st db a rf).2.2 = []) := by
  have hs := ravTriggerStep_spec (midState st db a rf).1 a
  have hq := handleURF_reqs st db a rf
  refine ⟨fun h1 => ?_, fun h1 h2 h3 h4 => ?_, fun h1 h2 h3 h4 => ?_,
    fun h1 h2 h3 => ?_⟩
  · rw [hq]
    exact hs.1 h1
  · obtain ⟨hv, hh, hr⟩ := hs.2.1 h1 h2 h3 h4
    exact ⟨hv, hh, by rw [hq]; exact hr⟩
  · rw [hq]
    exact hs.2.2.1 h1 h2 h3 h4
  · rw [hq]
    exact hs.2.2.2 h1 h2 h3

/-- C6 witness: a fresh receipt of value 7 outside the buffer, with
trigger value 5 and a free limiter slot, issues one request for the
(heaviest) allocation 4. -/
theorem rav_trigger_decision_witness :
    (handleUpdateReceiptFees
      (initSenderState 1 [] 1000000 [] 0 ⟨1000000, 5, 100⟩ 10) [] 4
      (ReceiptFees.newReceipt 7 3)).2.2 = [4] := by
  obtain ⟨hv, hh, hr⟩ := (rav_trigger_decision
    (initSenderState 1 [] 1000000 [] 0 ⟨1000000, 5, 100⟩ 10) [] 4
    (ReceiptFees.newReceipt 7 3)).2.1
    (by decide) (by decide) (by decide) (by decide)
  have he : some hv = some 4 := hh.symm.trans (by decide)
  cases he
  exact hr

end IndexerTap
